import Mathlib

/-!
Verification of BlenderSynth components against their specification.

Shallow embedding of:
* `blendersynth/blender/compositor/render_result.py` (`RenderResult`)
* `blendersynth/run/blender_threading.py` (`BlenderThread`, `BlenderThreadManager`)
* `blendersynth/annotations/utils.py` (point projection)
* `blendersynth/blender/compositor/compositor.py` (`Compositor`)

Python dictionaries are embedded as association lists, the filesystem as a
partial map from path to file lines, wall-clock time as a rational input,
and Python exceptions as `Except` / explicit error values.
-/

namespace BSyn

/-- Python exceptions raised by the embedded code. -/
inductive PyError
  | valueError
  | keyError
  | typeError
  | assertionError
  deriving Repr, DecidableEq

/-! ## `os.path.splitext` (posix semantics, as used by `render_result.py`) -/

/-- Index of the last occurrence of `c` in `cs`, if any. -/
def lastIdx (c : Char) : List Char → Option Nat
  | [] => none
  | x :: xs =>
    match lastIdx c xs with
    | some i => some (i + 1)
    | none => if x = c then some 0 else none

/-- `os.path.splitext`: split `p` into root and extension.  The extension is
everything from the last dot of the basename on, provided some earlier
character of the basename is not a dot (so `.bashrc` has no extension). -/
def splitext (p : String) : String × String :=
  let cs := p.data
  let sep : Nat := match lastIdx '/' cs with
    | some i => i + 1
    | none => 0
  match lastIdx '.' cs with
  | none => (p, "")
  | some d =>
    if sep ≤ d ∧ ((cs.drop sep).take (d - sep)).any (fun ch => ch ≠ '.') then
      (⟨cs.take d⟩, ⟨cs.drop d⟩)
    else
      (p, "")

/-- Python `f"{n:06d}"` for a natural number: left-pad the decimal digits
with zeros to width 6. -/
def fmt06 (n : Nat) : String :=
  let s := toString n
  ⟨List.replicate (6 - s.length) '0'⟩ ++ s

/-! ## `RenderResult` (`render_result.py`) -/

/-- A render-output key: `(output_key, camera_name, frame_number)`. -/
abbrev RenderKey := String × String × Nat

/-- `RenderResult.__init__`: stores the dictionary
`(output_key, camera_name, frame_number) -> path`, embedded as an
association list. -/
structure RenderResult where
  render_paths : List (RenderKey × String)
  deriving Repr

namespace RenderResult

/-- `self._output_types = list(set(k[0] for k in render_paths))`. -/
def output_types (rr : RenderResult) : List String :=
  (rr.render_paths.map (fun kv => kv.1.1)).dedup

/-- `self._camera_names = list(set(k[1] for k in render_paths))`. -/
def camera_names (rr : RenderResult) : List String :=
  (rr.render_paths.map (fun kv => kv.1.2.1)).dedup

/-- `self._frames = list(set(k[2] for k in render_paths))`. -/
def frames (rr : RenderResult) : List Nat :=
  (rr.render_paths.map (fun kv => kv.1.2.2)).dedup

/-- `num_cameras` property. -/
def num_cameras (rr : RenderResult) : Nat := rr.camera_names.length

/-- `num_frames` property. -/
def num_frames (rr : RenderResult) : Nat := rr.frames.length

/-- `num_output_types` property. -/
def num_output_types (rr : RenderResult) : Nat := rr.output_types.length

/-- `RenderResult.get_render_path`: resolve an omitted camera name (resp.
frame number) from the singleton list of camera names (resp. frames),
raising `ValueError` when the list is not a singleton, then look the key up
in the dictionary (`KeyError` when absent). -/
def get_render_path (rr : RenderResult) (output_type : String)
    (camera_name : Option String) (frame_number : Option Nat) :
    Except PyError String := do
  let cam : String ←
    match camera_name with
    | some c => pure c
    | none =>
      if rr.num_cameras ≠ 1 then throw .valueError
      else pure (rr.camera_names.headD "")
  let frm : Nat ←
    match frame_number with
    | some f => pure f
    | none =>
      if rr.num_frames ≠ 1 then throw .valueError
      else pure (rr.frames.headD 0)
  match rr.render_paths.lookup (output_type, cam, frm) with
  | some p => pure p
  | none => throw .keyError

/-- The filename built by one iteration of `RenderResult.save_all`, after the
effective suppression flags `sc`, `sf` have been computed. -/
def save_fname (sc sf : Bool) (key : RenderKey) (path : String) : String :=
  let fname := key.1
  let fname := if sc then fname else fname ++ "_" ++ key.2.1
  let fname := if sf then fname else fname ++ "_" ++ fmt06 key.2.2
  fname ++ (splitext path).2

/-- `RenderResult.save_all`, embedded as the list of `(filename, source_path)`
pairs it copies into the output directory. -/
def save_all (rr : RenderResult) (suppress_camera_name : Bool := true)
    (suppress_frame_number : Bool := true) : List (String × String) :=
  let sc := suppress_camera_name && rr.num_cameras == 1
  let sf := suppress_frame_number && rr.num_frames == 1
  rr.render_paths.map (fun kv => (save_fname sc sf kv.1 kv.2, kv.2))

end RenderResult

/-! ## `blender_threading.py`: `BlenderThread` / `BlenderThreadManager`

The filesystem is embedded as a partial map from path to file lines, the
wall clock as a rational-number input threaded through the functions, and
the Blender subprocess as a started/alive pair of flags (`process is None`
/ `process.poll() is None`). -/

/-- Filesystem: path to lines of the file, `none` when the file is absent. -/
abbrev FS := String → Option (List String)

/-- Ceiling division, `np.ceil(a / b)` for naturals. -/
def ceilDiv (a b : Nat) : Nat := (a + b - 1) / b

/-- Section sizes used by `np.array_split(l, n)`: `len % n` sections of
length `len / n + 1` followed by `n - len % n` sections of length
`len / n`. -/
def array_split_sizes (len n : Nat) : List Nat :=
  List.replicate (len % n) (len / n + 1) ++ List.replicate (n - len % n) (len / n)

/-- Cut `l` into consecutive chunks of the given sizes. -/
def splitSizes {α : Type} : List Nat → List α → List (List α)
  | [], _ => []
  | s :: ss, l => l.take s :: splitSizes ss (l.drop s)

/-- `np.array_split(l, n)`. -/
def array_split {α : Type} (l : List α) (n : Nat) : List (List α) :=
  splitSizes (array_split_sizes l.length n) l

/-- `_list_split(list, chunks)`. -/
def list_split {α : Type} (l : List α) (chunks : Nat) : List (List α) :=
  array_split l chunks

/-- Thread status line (the `self.status` strings, as an enumeration). -/
inductive TStatus
  | started
  | running (job njobs : Nat)
  | completed
  | failedTimeout
  deriving Repr, DecidableEq

/-- State of a `BlenderThread`. -/
structure BlenderThread where
  jobs : List (List String)
  njobs : Nat
  size : Nat
  timeout : ℚ
  prev_n : Nat
  timer : ℚ
  logger_loc : String
  processStarted : Bool
  processAlive : Bool
  job : Int
  finished : Bool
  status : TStatus
  deriving Repr

namespace BlenderThread

/-- `BlenderThread.__init__` (fields relevant to the model); `now` is the
`perf_counter()` value at construction. -/
def init (jobs : List String) (logger_loc : String) (timeout : ℚ)
    (MAX_PER_JOB : Nat) (now : ℚ) : BlenderThread :=
  let chunks := list_split jobs (ceilDiv jobs.length MAX_PER_JOB)
  { jobs := chunks
    njobs := chunks.length
    size := jobs.length
    timeout := timeout
    prev_n := 0
    timer := now
    logger_loc := logger_loc
    processStarted := false
    processAlive := false
    job := -1
    finished := false
    status := .started }

/-- `num_rendered` property: 0 when the process has not started or the
progress file does not exist, else the number of lines of the progress
file. -/
def num_rendered (fs : FS) (t : BlenderThread) : Nat :=
  if t.processStarted = false then 0
  else
    match fs t.logger_loc with
    | none => 0
    | some lines => lines.length

/-- `is_running` property: `self.process.poll() is None` when a process
exists, else `False`. -/
def is_running (t : BlenderThread) : Bool :=
  t.processStarted && t.processAlive

/-- `success` property: all of this thread's jobs rendered. -/
def success (fs : FS) (t : BlenderThread) : Bool :=
  num_rendered fs t == t.size

/-- `terminate` / `kill`: `self.process.kill()`. -/
def terminate (t : BlenderThread) : BlenderThread :=
  { t with processAlive := false }

/-- `start_job`: spawn a Blender subprocess for the current chunk. -/
def start_job (t : BlenderThread) : BlenderThread :=
  { t with processStarted := true, processAlive := true }

/-- `check_in`: if the current job still runs do nothing, else advance to
the next chunk, finishing the thread when all chunks are done. -/
def check_in (t : BlenderThread) : BlenderThread :=
  if is_running t then t
  else
    let j := t.job + 1
    if j ≥ (t.njobs : Int) then
      { t with job := j, finished := true, status := .completed }
    else
      start_job { t with job := j, status := .running (j + 1).toNat t.njobs }

/-- `check_status`: `True` if still running successfully, `False` once the
inactivity timeout is exceeded; `now` is the current `perf_counter()`
value.  Returns the flag together with the updated thread state. -/
def check_status (t : BlenderThread) (fs : FS) (now : ℚ) : Bool × BlenderThread :=
  let n := num_rendered fs t
  if n > t.prev_n then
    (true, { t with prev_n := n, timer := now })
  else if now - t.timer ≥ t.timeout then
    (false, { t with status := .failedTimeout })
  else
    (true, t)

end BlenderThread

/-- State of a `BlenderThreadManager`. -/
structure BlenderThreadManager where
  num_threads : Nat
  threads : List BlenderThread
  deriving Repr

/-- Progress-log path for thread `i`: `progress_dir/progress_{i:02d}.log`. -/
def progress_loc (progress_dir : String) (i : Nat) : String :=
  let s := toString i
  progress_dir ++ "/progress_" ++ (⟨List.replicate (2 - s.length) '0'⟩ ++ s) ++ ".log"

namespace BlenderThreadManager

/-- `BlenderThreadManager.__init__`: one `BlenderThread` per element of
`jsons`, thread `i` receiving the job list `jsons[i]` (the default thread
timeout of 100 seconds is used, as in the source). -/
def init (jsons : List (List String)) (progress_dir : String)
    (MAX_PER_JOB : Nat) (now : ℚ) : BlenderThreadManager :=
  { num_threads := jsons.length
    threads := jsons.enum.map (fun p =>
      BlenderThread.init p.2 (progress_loc progress_dir p.1) 100 MAX_PER_JOB now) }

/-- `BlenderThreadManager.__len__`: total number of jobs over all threads. -/
def size (m : BlenderThreadManager) : Nat :=
  (m.threads.map (fun t => t.size)).sum

/-- `BlenderThreadManager.num_rendered` property. -/
def num_rendered (fs : FS) (m : BlenderThreadManager) : Nat :=
  (m.threads.map (fun t => BlenderThread.num_rendered fs t)).sum

end BlenderThreadManager

/-- One iteration of the per-thread body of the supervision loop in
`BlenderThreadManager.start` (lines 284-302): a finished thread is skipped;
otherwise the thread checks in, and when it is not successful its
`check_status` is consulted; when `check_status` reports failure the loop
body does nothing further (the `else` branch is `pass` - it only notifies
the user). -/
def supervise_thread (fs : FS) (now : ℚ) (t : BlenderThread) : BlenderThread :=
  if t.finished then t
  else
    let t1 := BlenderThread.check_in t
    if BlenderThread.success fs t1 then t1
    else (BlenderThread.check_status t1 fs now).2

/-- Association-list lookup finds the stored value when the keys are
duplicate-free. -/
theorem lookup_eq_of_mem {α β : Type} [BEq α] [LawfulBEq α]
    (l : List (α × β)) (hnd : (l.map Prod.fst).Nodup)
    (k : α) (v : β) (hmem : (k, v) ∈ l) :
    l.lookup k = some v := by
  induction l with
  | nil => cases hmem
  | cons hd tl ih =>
    simp only [List.map_cons, List.nodup_cons] at hnd
    rcases List.mem_cons.mp hmem with heq | htl
    · subst heq
      simp [List.lookup]
    · have hk : (k == hd.1) = false := by
        simp only [beq_eq_false_iff_ne, ne_eq]
        intro h
        exact hnd.1 (h ▸ (List.mem_map.mpr ⟨(k, v), htl, rfl⟩))
      simp only [List.lookup, hk]
      exact ih hnd.2 htl

@[simp] theorem throw_bind {ε α β : Type} (e : ε) (f : α → Except ε β) :
    (throw e : Except ε α) >>= f = throw e := rfl

@[simp] theorem throw_eq_error {ε α : Type} (e : ε) :
    (throw e : Except ε α) = .error e := rfl

@[simp] theorem pure_eq_ok {ε α : Type} (a : α) :
    (pure a : Except ε α) = .ok a := rfl

@[simp] theorem error_bind {ε α β : Type} (e : ε) (f : α → Except ε β) :
    (Except.error e : Except ε α) >>= f = .error e := rfl

@[simp] theorem ok_bind {ε α β : Type} (a : α) (f : α → Except ε β) :
    (Except.ok a : Except ε α) >>= f = f a := rfl

/-- A sample render result with one camera, one frame, one output type. -/
def rrSample : RenderResult := ⟨[(("rgb", "cam0", 1), "a/x.png")]⟩

/-- A sample render result with two cameras and one frame. -/
def rrSample2 : RenderResult :=
  ⟨[(("rgb", "a", 0), "t/x.png"), (("rgb", "b", 0), "t/y.jpg")]⟩

/-- C1: `get_render_path` with `camera_name` omitted raises `ValueError` when
the number of distinct camera names differs from 1 and otherwise behaves as
if the unique camera name had been supplied; likewise for an omitted
`frame_number` against the distinct frame numbers; with both components
resolved it returns exactly the path stored under
`(output_type, camera_name, frame_number)`. -/
theorem C1_get_render_path (rr : RenderResult) (ot c : String) (f : Nat)
    (c? : Option String) (f? : Option Nat) (p : String) :
    (rr.num_cameras ≠ 1 →
      rr.get_render_path ot none f? = .error .valueError) ∧
    (rr.camera_names = [c] →
      rr.get_render_path ot none f? = rr.get_render_path ot (some c) f?) ∧
    (rr.num_frames ≠ 1 →
      rr.get_render_path ot c? none = .error .valueError) ∧
    (rr.frames = [f] →
      rr.get_render_path ot c? none = rr.get_render_path ot c? (some f)) ∧
    ((rr.render_paths.map Prod.fst).Nodup → ((ot, c, f), p) ∈ rr.render_paths →
      rr.get_render_path ot (some c) (some f) = .ok p) := by
  refine ⟨?_, ?_, ?_, ?_, ?_⟩
  · intro h
    simp [RenderResult.get_render_path, h]
  · intro h
    have h1 : rr.num_cameras = 1 := by
      simp [RenderResult.num_cameras, h]
    simp [RenderResult.get_render_path, h, h1]
  · intro h
    cases c? with
    | none =>
      by_cases hc : rr.num_cameras = 1 <;>
        simp [RenderResult.get_render_path, h, hc]
    | some c0 =>
      simp [RenderResult.get_render_path, h]
  · intro h
    have h1 : rr.num_frames = 1 := by
      simp [RenderResult.num_frames, h]
    cases c? with
    | none =>
      by_cases hc : rr.num_cameras = 1 <;>
        simp [RenderResult.get_render_path, h, h1, hc]
    | some c0 =>
      simp [RenderResult.get_render_path, h, h1]
  · intro hnd hmem
    simp [RenderResult.get_render_path,
      lookup_eq_of_mem rr.render_paths hnd (ot, c, f) p hmem]

/-- Witness for C1 at a concrete render result. -/
theorem C1_get_render_path_witness :
    rrSample.get_render_path "rgb" (some "cam0") (some 1) = .ok "a/x.png" :=
  (C1_get_render_path rrSample "rgb" "cam0" 1 none none "a/x.png").2.2.2.2
    (by decide) (by decide)

/-- C3: `save_all` writes each mapping entry under a filename that starts with
the output key, appends the camera name iff the number of distinct cameras is
not 1 (under the default `suppress_camera_name = True`), appends the 6-digit
zero-padded frame number iff the number of distinct frames is not 1 (under the
default `suppress_frame_number = True`), keeps the source file's extension;
and passing `suppress_camera_name=False` (resp. `suppress_frame_number=False`)
always appends that component. -/
theorem C3_save_all (rr : RenderResult) (k : RenderKey) (path : String)
    (hmem : (k, path) ∈ rr.render_paths) :
    ((k.1 ++ (if rr.num_cameras = 1 then "" else "_" ++ k.2.1)
        ++ (if rr.num_frames = 1 then "" else "_" ++ fmt06 k.2.2)
        ++ (splitext path).2, path) ∈ rr.save_all true true) ∧
    ((k.1 ++ ("_" ++ k.2.1)
        ++ (if rr.num_frames = 1 then "" else "_" ++ fmt06 k.2.2)
        ++ (splitext path).2, path) ∈ rr.save_all false true) ∧
    ((k.1 ++ (if rr.num_cameras = 1 then "" else "_" ++ k.2.1)
        ++ ("_" ++ fmt06 k.2.2)
        ++ (splitext path).2, path) ∈ rr.save_all true false) ∧
    (∀ sc sf : Bool, (rr.save_all sc sf).length = rr.render_paths.length) := by
  refine ⟨?_, ?_, ?_, ?_⟩
  · refine List.mem_map.mpr ⟨(k, path), hmem, ?_⟩
    by_cases hc : rr.num_cameras = 1 <;> by_cases hf : rr.num_frames = 1 <;>
      simp [RenderResult.save_all, RenderResult.save_fname, hc, hf,
        String.append_assoc]
  · refine List.mem_map.mpr ⟨(k, path), hmem, ?_⟩
    by_cases hf : rr.num_frames = 1 <;>
      simp [RenderResult.save_all, RenderResult.save_fname, hf,
        String.append_assoc]
  · refine List.mem_map.mpr ⟨(k, path), hmem, ?_⟩
    by_cases hc : rr.num_cameras = 1 <;>
      simp [RenderResult.save_all, RenderResult.save_fname, hc,
        String.append_assoc]
  · intro sc sf
    simp [RenderResult.save_all]

/-- Witness for C3 at a concrete two-camera render result. -/
theorem C3_save_all_witness :
    ("rgb_a.png", "t/x.png") ∈ rrSample2.save_all true true := by
  have h := (C3_save_all rrSample2 ("rgb", "a", 0) "t/x.png" (by decide)).1
  revert h
  decide

/-! ## Theorems about the threading layer -/

/-- A filesystem with no files. -/
def fsEmpty : FS := fun _ => none

/-- A filesystem holding one progress log with two completed entries. -/
def fsTwoLines : FS :=
  fun p => if p = "prog.log" then some ["done", "done"] else none

/-- A thread whose subprocess is running on its only chunk. -/
def tSample : BlenderThread :=
  { jobs := [["a.json", "b.json"]], njobs := 1, size := 2, timeout := 100,
    prev_n := 0, timer := 0, logger_loc := "prog.log", processStarted := true,
    processAlive := true, job := 0, finished := false, status := .running 1 1 }

/-- C4: `num_rendered` equals the line count of the progress file, and is 0
when the process has not started or the file is absent;
`BlenderThreadManager.num_rendered` is the sum over its threads; `success`
holds iff `num_rendered` equals the thread's job count. -/
theorem C4_num_rendered (fs : FS) (t : BlenderThread)
    (m : BlenderThreadManager) (ls : List String) :
    (t.processStarted = false ∨ fs t.logger_loc = none →
      BlenderThread.num_rendered fs t = 0) ∧
    (t.processStarted = true → fs t.logger_loc = some ls →
      BlenderThread.num_rendered fs t = ls.length) ∧
    (BlenderThreadManager.num_rendered fs m =
      (m.threads.map (fun th => BlenderThread.num_rendered fs th)).sum) ∧
    (BlenderThread.success fs t = true ↔
      BlenderThread.num_rendered fs t = t.size) := by
  refine ⟨?_, ?_, ?_, ?_⟩
  · rintro (h | h) <;> simp [BlenderThread.num_rendered, h]
  · intro h1 h2
    simp [BlenderThread.num_rendered, h1, h2]
  · rfl
  · simp [BlenderThread.success]

/-- Witness for C4: a started thread whose log holds two lines. -/
theorem C4_num_rendered_witness :
    BlenderThread.num_rendered fsTwoLines tSample = 2 :=
  (C4_num_rendered fsTwoLines tSample ⟨0, []⟩ ["done", "done"]).2.1 rfl rfl

/-- C5: `check_status` returns `True` and resets the inactivity timer when
`num_rendered` increased since the previous check; it returns `False` and
marks the status failed exactly when `num_rendered` did not increase and at
least `timeout` seconds passed since the timer was last reset; otherwise it
leaves the state unchanged. -/
theorem C5_check_status (t : BlenderThread) (fs : FS) (now : ℚ) :
    (BlenderThread.num_rendered fs t > t.prev_n →
      BlenderThread.check_status t fs now =
        (true, { t with prev_n := BlenderThread.num_rendered fs t,
                        timer := now })) ∧
    ((BlenderThread.check_status t fs now).1 = false ↔
      BlenderThread.num_rendered fs t ≤ t.prev_n ∧ now - t.timer ≥ t.timeout) ∧
    ((BlenderThread.check_status t fs now).1 = false →
      (BlenderThread.check_status t fs now).2.status = .failedTimeout) ∧
    ((BlenderThread.check_status t fs now).1 = true ∧
        BlenderThread.num_rendered fs t ≤ t.prev_n →
      (BlenderThread.check_status t fs now).2 = t) := by
  by_cases h1 : BlenderThread.num_rendered fs t > t.prev_n <;>
    by_cases h2 : now - t.timer ≥ t.timeout <;>
      simp [BlenderThread.check_status, h1, h2] <;> omega

/-- Witness for C5: a fresh check after two renders completed. -/
theorem C5_check_status_witness :
    BlenderThread.check_status tSample fsTwoLines 50 =
      (true, { tSample with prev_n := 2, timer := 50 }) := by
  have h := (C5_check_status tSample fsTwoLines 50).1
  exact h (by decide)

/-- The sample thread is already running, so `check_in` leaves it alone. -/
theorem tSample_check_in : BlenderThread.check_in tSample = tSample := rfl

/-- At time 200 with an empty filesystem, the sample thread's `check_status`
reports timeout failure. -/
theorem tSample_timeout :
    BlenderThread.check_status tSample fsEmpty 200 =
      (false, { tSample with status := .failedTimeout }) := by
  have hq : (100 : ℚ) ≤ 200 := by norm_num
  simp [BlenderThread.check_status, BlenderThread.num_rendered, fsEmpty,
    tSample, hq]

/-- The supervision iteration leaves the timed-out sample thread with its
status set to failed and nothing else changed. -/
theorem tSample_supervise :
    supervise_thread fsEmpty 200 tSample =
      { tSample with status := .failedTimeout } := by
  show (if tSample.finished then tSample
    else
      let t1 := BlenderThread.check_in tSample
      if BlenderThread.success fsEmpty t1 then t1
      else (BlenderThread.check_status t1 fsEmpty 200).2) =
    { tSample with status := .failedTimeout }
  rw [if_neg (by decide)]
  show (if BlenderThread.success fsEmpty (BlenderThread.check_in tSample) then
      BlenderThread.check_in tSample
    else (BlenderThread.check_status (BlenderThread.check_in tSample) fsEmpty
      200).2) = _
  rw [if_neg (by decide), tSample_check_in, tSample_timeout]

/-- C2 counterexample: an iteration of the supervision loop in which
`check_status` reports timeout failure yet the thread's subprocess is left
running (the loop body's failure branch is `pass`; it never calls
`terminate`). -/
theorem C2_counterexample :
    (BlenderThread.check_status (BlenderThread.check_in tSample) fsEmpty 200).1
        = false ∧
    BlenderThread.is_running (supervise_thread fsEmpty 200 tSample) = true := by
  constructor
  · rw [tSample_check_in, tSample_timeout]
  · rw [tSample_supervise]
    rfl

/-! ### Lemmas about `array_split` and the job distribution (C6) -/

theorem splitSizes_length {α : Type} (sizes : List Nat) (l : List α) :
    (splitSizes sizes l).length = sizes.length := by
  induction sizes generalizing l with
  | nil => rfl
  | cons s ss ih => simp [splitSizes, ih]

theorem splitSizes_join {α : Type} (sizes : List Nat) (l : List α) :
    (splitSizes sizes l).join = l.take sizes.sum := by
  induction sizes generalizing l with
  | nil => simp [splitSizes]
  | cons s ss ih =>
    simp [splitSizes, ih, List.take_add]

theorem splitSizes_chunk_le {α : Type} (sizes : List Nat) (l : List α)
    (M : Nat) (hs : ∀ s ∈ sizes, s ≤ M) :
    ∀ c ∈ splitSizes sizes l, c.length ≤ M := by
  induction sizes generalizing l with
  | nil => intro c hc; cases hc
  | cons s ss ih =>
    intro c hc
    rcases List.mem_cons.mp hc with rfl | h
    · calc (l.take s).length ≤ s := by simp
        _ ≤ M := hs s (List.mem_cons_self _ _)
    · exact ih (l.drop s) (fun x hx => hs x (List.mem_cons_of_mem _ hx)) c h

theorem repl_sum (n q r : Nat) (h1 : r ≤ n) :
    r * (q + 1) + (n - r) * q = n * q + r := by
  have h2 : (n - r) * q = n * q - r * q := Nat.sub_mul _ _ _
  have h3 : r * q ≤ n * q := Nat.mul_le_mul_right _ h1
  have key : ∀ A B c : Nat, A ≤ B → A + c + (B - A) = B + c := by
    intro A B c h
    omega
  calc r * (q + 1) + (n - r) * q
      = r * q + r + (n * q - r * q) := by rw [Nat.mul_add, Nat.mul_one, h2]
    _ = n * q + r := key _ _ _ h3

theorem array_split_sizes_sum (len n : Nat) (hn : 0 < n) :
    (array_split_sizes len n).sum = len := by
  have h1 : len % n < n := Nat.mod_lt _ hn
  have h2 : n * (len / n) + len % n = len := Nat.div_add_mod len n
  simp only [array_split_sizes, List.sum_append, List.sum_replicate,
    smul_eq_mul]
  rw [repl_sum n (len / n) (len % n) (le_of_lt h1)]
  exact h2

theorem ceilDiv_pos (len M : Nat) (hM : 0 < M) (hlen : 0 < len) :
    0 < ceilDiv len M := by
  have : M ≤ len + M - 1 := by omega
  exact (Nat.one_le_div_iff hM).mpr this

theorem le_mul_ceilDiv (len M : Nat) (hM : 0 < M) :
    len ≤ ceilDiv len M * M := by
  have hd := Nat.div_add_mod (len + M - 1) M
  have hr : (len + M - 1) % M < M := Nat.mod_lt _ hM
  show len ≤ (len + M - 1) / M * M
  rw [Nat.mul_comm]
  set P := M * ((len + M - 1) / M) with hP
  omega

theorem array_split_sizes_le (len M : Nat) (hM : 0 < M) :
    ∀ s ∈ array_split_sizes len (ceilDiv len M), s ≤ M := by
  intro s hs
  set n := ceilDiv len M with hn
  have hle : len ≤ n * M := le_mul_ceilDiv len M hM
  rcases List.mem_append.mp hs with h | h
  · -- s = len / n + 1, only possible when len % n > 0
    have hsz := List.eq_of_mem_replicate h
    have hr : 0 < len % n := by
      rcases Nat.eq_zero_or_pos (len % n) with h0 | h0
      · rw [h0] at h
        simp at h
      · exact h0
    have hpos : 0 < n := by
      by_contra hc
      have h0 : n = 0 := by omega
      rw [h0] at hle hr
      simp at hle hr
      omega
    have hdm : n * (len / n) + len % n = len := Nat.div_add_mod len n
    subst hsz
    by_contra hgt
    have hMq : M ≤ len / n := by omega
    have hmul : n * M ≤ n * (len / n) := Nat.mul_le_mul_left n hMq
    omega
  · have hsz := List.eq_of_mem_replicate h
    subst hsz
    by_cases hpos : 0 < n
    · have hdm : n * (len / n) + len % n = len := Nat.div_add_mod len n
      have h1 : n * (len / n) ≤ n * M := by omega
      exact Nat.le_of_mul_le_mul_left h1 hpos
    · have h0 : n = 0 := by omega
      rw [h0]
      simp

/-- Everything C6 states about a single `BlenderThread` built from a
nonempty job list. -/
theorem thread_init_spec (jobs : List String) (loc : String) (timeout : ℚ)
    (M : Nat) (now : ℚ) (hM : 1 ≤ M) (hne : jobs ≠ []) :
    (BlenderThread.init jobs loc timeout M now).size = jobs.length ∧
    (BlenderThread.init jobs loc timeout M now).jobs.length
        = ceilDiv jobs.length M ∧
    (BlenderThread.init jobs loc timeout M now).jobs.join = jobs ∧
    (∀ c ∈ (BlenderThread.init jobs loc timeout M now).jobs, c.length ≤ M) := by
  have hlen : 0 < jobs.length := List.length_pos.mpr hne
  have hn : 0 < ceilDiv jobs.length M := ceilDiv_pos _ _ hM hlen
  have hsum : (array_split_sizes jobs.length (ceilDiv jobs.length M)).sum
      = jobs.length := array_split_sizes_sum _ _ hn
  refine ⟨rfl, ?_, ?_, ?_⟩
  · show (splitSizes (array_split_sizes jobs.length (ceilDiv jobs.length M))
        jobs).length = _
    rw [splitSizes_length]
    simp [array_split_sizes]
    have h1 : jobs.length % ceilDiv jobs.length M < ceilDiv jobs.length M :=
      Nat.mod_lt _ hn
    omega
  · show (splitSizes (array_split_sizes jobs.length (ceilDiv jobs.length M))
        jobs).join = _
    rw [splitSizes_join, hsum, List.take_length]
  · intro c hc
    exact splitSizes_chunk_le _ jobs M (array_split_sizes_le _ _ hM) c hc

/-- C6: a manager built from a list `jsons` of nonempty job lists with
`MAX_PER_JOB >= 1` creates exactly `len(jsons)` threads; thread `i` receives
the jobs `jsons[i]`, split into `ceil(size / MAX_PER_JOB)` chunks whose
in-order concatenation is the original job list and whose sizes are each at
most `MAX_PER_JOB`; `len(manager)` is the total number of jobs. -/
theorem C6_manager_init (jsons : List (List String)) (dir : String)
    (M : Nat) (now : ℚ) (hM : 1 ≤ M) (hne : ∀ js ∈ jsons, js ≠ []) :
    (BlenderThreadManager.init jsons dir M now).threads.length
        = jsons.length ∧
    (BlenderThreadManager.init jsons dir M now).num_threads = jsons.length ∧
    (∀ i, (hi : i < (BlenderThreadManager.init jsons dir M now).threads.length)
        → (hj : i < jsons.length) →
      ((BlenderThreadManager.init jsons dir M now).threads.get ⟨i, hi⟩).size
          = (jsons.get ⟨i, hj⟩).length ∧
      ((BlenderThreadManager.init jsons dir M now).threads.get
          ⟨i, hi⟩).jobs.length = ceilDiv (jsons.get ⟨i, hj⟩).length M ∧
      ((BlenderThreadManager.init jsons dir M now).threads.get
          ⟨i, hi⟩).jobs.join = jsons.get ⟨i, hj⟩ ∧
      (∀ c ∈ ((BlenderThreadManager.init jsons dir M now).threads.get
          ⟨i, hi⟩).jobs, c.length ≤ M)) ∧
    (BlenderThreadManager.init jsons dir M now).size
        = (jsons.map List.length).sum := by
  have hthreads : (BlenderThreadManager.init jsons dir M now).threads
      = jsons.enum.map (fun p =>
          BlenderThread.init p.2 (progress_loc dir p.1) 100 M now) := rfl
  have hlen : (BlenderThreadManager.init jsons dir M now).threads.length
      = jsons.length := by
    rw [hthreads]
    simp
  refine ⟨hlen, rfl, ?_, ?_⟩
  · intro i hi hj
    have hget : (BlenderThreadManager.init jsons dir M now).threads.get ⟨i, hi⟩
        = BlenderThread.init (jsons.get ⟨i, hj⟩)
            (progress_loc dir i) 100 M now := by
      rw [List.get_eq_getElem, List.get_eq_getElem]
      simp only [hthreads]
      rw [List.getElem_map]
      · congr 1 <;> simp [List.getElem_enum]
    rw [hget]
    exact thread_init_spec _ _ _ _ _ hM (hne _ (List.get_mem jsons i hj))
  · show ((jsons.enum.map (fun p =>
        BlenderThread.init p.2 (progress_loc dir p.1) 100 M now)).map
          (fun t => t.size)).sum = _
    rw [List.map_map]
    have : ((fun (t : BlenderThread) => t.size) ∘ (fun p : Nat × List String =>
        BlenderThread.init p.2 (progress_loc dir p.1) 100 M now))
        = (List.length ∘ Prod.snd) := rfl
    rw [this, ← List.map_map, List.enum_map_snd]

/-- Witness for C6: two job lists of sizes 3 and 1, `MAX_PER_JOB = 2`. -/
theorem C6_manager_init_witness :
    (BlenderThreadManager.init [["a", "b", "c"], ["d"]] "p" 2 0).size = 4 := by
  have h := (C6_manager_init [["a", "b", "c"], ["d"]] "p" 2 0 (by decide)
    (by decide)).2.2.2
  rw [h]
  decide

/-- `check_status` never changes the subprocess flags. -/
theorem check_status_preserves_process (t : BlenderThread) (fs : FS) (now : ℚ) :
    (BlenderThread.check_status t fs now).2.processAlive = t.processAlive ∧
    (BlenderThread.check_status t fs now).2.processStarted = t.processStarted := by
  by_cases h1 : BlenderThread.num_rendered fs t > t.prev_n <;>
    by_cases h2 : now - t.timer ≥ t.timeout <;>
      simp [BlenderThread.check_status, h1, h2]

/-- C2 (amended): when a not-finished thread's `check_status` reports timeout
failure during a supervision iteration, the loop body takes no action on the
subprocess: the resulting thread state is exactly the one `check_status`
produced, and its subprocess flags (started/alive) are unchanged, so the
subprocess is left running; only the status text is set to failed. -/
theorem C2_amended (t : BlenderThread) (fs : FS) (now : ℚ)
    (hfin : t.finished = false)
    (hsucc : BlenderThread.success fs (BlenderThread.check_in t) = false)
    (hfail : (BlenderThread.check_status (BlenderThread.check_in t) fs now).1
        = false) :
    supervise_thread fs now t =
      (BlenderThread.check_status (BlenderThread.check_in t) fs now).2 ∧
    (supervise_thread fs now t).processAlive =
      (BlenderThread.check_in t).processAlive ∧
    (supervise_thread fs now t).processStarted =
      (BlenderThread.check_in t).processStarted := by
  have heq : supervise_thread fs now t =
      (BlenderThread.check_status (BlenderThread.check_in t) fs now).2 := by
    simp [supervise_thread, hfin, hsucc]
  refine ⟨heq, ?_, ?_⟩
  · rw [heq]
    exact (check_status_preserves_process _ fs now).1
  · rw [heq]
    exact (check_status_preserves_process _ fs now).2

/-- Witness for the amended C2 at a concrete timed-out thread. -/
theorem C2_amended_witness :
    supervise_thread fsEmpty 200 tSample =
      (BlenderThread.check_status (BlenderThread.check_in tSample) fsEmpty 200).2 :=
  (C2_amended tSample fsEmpty 200 rfl (by decide)
    (by rw [tSample_check_in, tSample_timeout])).1

/-! ## `annotations/utils.py`: point projection

Real-number arithmetic is embedded over `ℚ`; the host's
`world_to_camera_view` is an uninterpreted function from camera and 3D point
to normalized device coordinates `(ndc_x, ndc_y, ndc_depth)`. -/

/-- A 3D point. -/
abbrev V3 := ℚ × ℚ × ℚ

/-- The `scene.render` resolution settings used by the projection. -/
structure RenderSettings where
  resolution_x : ℚ
  resolution_y : ℚ

/-- The part of a `bpy` scene the projection reads. -/
structure SceneCfg where
  render : RenderSettings

/-- Camera identity (opaque to the projection code). -/
abbrev CamId := String

/-- `project_point_to_image`: image coordinates of a 3D point `P`, with `y`
measured from the top of the image when `invert_y` is set. -/
def project_point_to_image (world_to_camera_view : CamId → V3 → ℚ × ℚ × ℚ)
    (scene : SceneCfg) (camera : CamId) (P : V3) (invert_y : Bool) : ℚ × ℚ :=
  let ndc := world_to_camera_view camera P
  let imgx := scene.render.resolution_x * ndc.1
  let imgy :=
    if invert_y then scene.render.resolution_y * (1 - ndc.2.1)
    else scene.render.resolution_y * ndc.2.1
  (imgx, imgy)

/-- `project_points`: project each row of an N-by-3 matrix of points. -/
def project_points (world_to_camera_view : CamId → V3 → ℚ × ℚ × ℚ)
    (scene : SceneCfg) (camera : CamId) (points : List V3)
    (invert_y : Bool) : List (ℚ × ℚ) :=
  points.map (fun p =>
    project_point_to_image world_to_camera_view scene camera p invert_y)

/-- C7: with `world_to_camera_view` uninterpreted,
`project_point_to_image` returns `(resolution_x * ndc_x,
resolution_y * (1 - ndc_y))` when `invert_y` is true and
`(resolution_x * ndc_x, resolution_y * ndc_y)` when it is false, and
`project_points` maps it over the rows of its input. -/
theorem C7_projection (w2cv : CamId → V3 → ℚ × ℚ × ℚ) (scene : SceneCfg)
    (camera : CamId) (P : V3) (points : List V3) (b : Bool) (i : Nat)
    (hi : i < points.length) :
    project_point_to_image w2cv scene camera P true =
      (scene.render.resolution_x * (w2cv camera P).1,
        scene.render.resolution_y * (1 - (w2cv camera P).2.1)) ∧
    project_point_to_image w2cv scene camera P false =
      (scene.render.resolution_x * (w2cv camera P).1,
        scene.render.resolution_y * (w2cv camera P).2.1) ∧
    (project_points w2cv scene camera points b).length = points.length ∧
    (project_points w2cv scene camera points b).getD i (0, 0) =
      project_point_to_image w2cv scene camera (points.getD i (0, 0, 0)) b := by
  refine ⟨rfl, rfl, by simp [project_points], ?_⟩
  rw [List.getD_eq_getElem?_getD, List.getD_eq_getElem?_getD]
  rw [List.getElem?_eq_getElem (by simpa [project_points] using hi),
    List.getElem?_eq_getElem hi]
  simp [project_points]

/-- Witness for C7 at a one-point input. -/
theorem C7_projection_witness :
    project_points (fun _ p => p) ⟨⟨640, 480⟩⟩ "cam" [((1 : ℚ)/2, (1 : ℚ)/4, 1)]
        true =
      [((640 : ℚ) * (1/2), (480 : ℚ) * (1 - 1/4))] := by
  have h := (C7_projection (fun _ p => p) ⟨⟨640, 480⟩⟩ "cam"
    ((1 : ℚ)/2, (1 : ℚ)/4, 1) [((1 : ℚ)/2, (1 : ℚ)/4, 1)] true 0
    (by simp)).2.2.2
  simp only [List.getD] at h
  simp [project_points, project_point_to_image] at h ⊢

/-! ## `compositor.py`: `Compositor`

The compositor's registries (`file_output_nodes`, `mask_nodes`, `overlays`,
`aovs`) are embedded as association lists of names / pass indices to node
identifiers; node creation in the node tree is modeled by a fresh-identifier
counter.  The `bpy` world state carries, per scene, the fields
`Compositor.render` reads and writes (the active camera and the animation
frame range); the context scene is `bpy.context.scene`.  Node contents
(links, formats, written image files) and overlay/AOV internal updates are
outside the model; the registries themselves are what the claims are
about. -/

/-- Identity of a scene in `bpy.data.scenes`. -/
abbrev SceneId := Nat

/-- Identity of a camera object. -/
abbrev CamObj := String

/-- Per-scene `bpy` state read and written by `Compositor.render`. -/
structure BpyState where
  ctx_scene : SceneId
  active_cam : SceneId → Option CamObj
  frame_start : SceneId → Int
  frame_end : SceneId → Int

/-- Registries of a `Compositor`, with a fresh-node counter standing for
node creation in the compositor node tree. -/
structure CompositorState where
  file_output_nodes : List (String × Nat)
  mask_nodes : List (Nat × Nat)
  overlays : List String
  aovs : List String
  nodes : List Nat
  next_node : Nat
  use_pass_object_index : Bool
  deriving Repr, DecidableEq

/-- The `input_data` argument of `define_output`. -/
inductive InputData
  | str (s : String)
  | nodeGroup (n : String)
  | aov (n : String)
  deriving Repr, DecidableEq

/-- The AOV replacement at the top of `define_output`: an `AOV` input is
replaced by its name. -/
def replaceAOV : InputData → InputData
  | .aov n => .str n
  | x => x

/-- Python `str(...)` of the (possibly replaced) input: a plain string is
itself; a `CompositorNodeGroup` prints as `CompositorNodeGroup(name)`
(`NodeGroup.__str__`). -/
def strOfInput : InputData → String
  | .str s => s
  | .nodeGroup n => "CompositorNodeGroup(" ++ n ++ ")"
  | .aov n => n

/-- The keys of `format_to_extension`. -/
def format_to_extension_keys : List String :=
  ["BMP", "IRIS", "PNG", "JPEG", "JPEG2000", "TARGA", "TARGA_RAW", "CINEON",
   "DPX", "OPEN_EXR_MULTILAYER", "OPEN_EXR", "HDR", "TIFF"]

/-- The name `define_output` registers under: the explicit `name` when
given, else `str` of the (AOV-replaced) `input_data`. -/
def derived_name (input_data : InputData) (name? : Option String) : String :=
  match name? with
  | some n => n
  | none => strOfInput (replaceAOV input_data)

/-- `Compositor.define_output`: an `AOV` input is first appended to
`self.aovs` and replaced by its name; the file format is asserted
supported; a duplicate output name raises `ValueError` (before any node is
created); otherwise one new file output node is created and registered
under the name, which is returned.  The returned state is the object state
at return or at the raise point. -/
def define_output (comp : CompositorState) (input_data : InputData)
    (name? : Option String) (file_format : String) :
    (Except PyError String) × CompositorState :=
  let comp1 := match input_data with
    | .aov a => { comp with aovs := comp.aovs ++ [a] }
    | _ => comp
  if file_format ∉ format_to_extension_keys then
    (.error .assertionError, comp1)
  else
    let name := derived_name input_data name?
    if name ∈ comp1.file_output_nodes.map Prod.fst then
      (.error .valueError, comp1)
    else
      let nodeId := comp1.next_node
      (.ok name,
        { comp1 with
          nodes := comp1.nodes ++ [nodeId]
          next_node := nodeId + 1
          file_output_nodes := comp1.file_output_nodes ++ [(name, nodeId)] })

/-- The `input_rgb` argument of `get_mask`: a render-layer key, a
`CompositorNodeGroup`, or anything else (which raises `TypeError`). -/
inductive InputRGB
  | str (s : String)
  | nodeGroup (n : String)
  | invalid
  deriving Repr, DecidableEq

/-- `Compositor.get_mask`: enables the object-index pass, creates and
registers a mask node group for `index` when none is registered yet
(raising `TypeError` for an invalid `input_rgb`), and returns the node
group registered for `index`. -/
def get_mask (comp : CompositorState) (index : Nat) (input_rgb : InputRGB) :
    (Except PyError Nat) × CompositorState :=
  let comp1 := { comp with use_pass_object_index := true }
  match comp1.mask_nodes.lookup index with
  | some m => (.ok m, comp1)
  | none =>
    match input_rgb with
    | .invalid => (.error .typeError, comp1)
    | _ =>
      let nodeId := comp1.next_node
      (.ok nodeId,
        { comp1 with
          nodes := comp1.nodes ++ [nodeId]
          next_node := nodeId + 1
          mask_nodes := comp1.mask_nodes ++ [(index, nodeId)] })

/-- `scene.camera = c` for a given scene. -/
def set_active_cam (scene : SceneId) (c : Option CamObj) (w : BpyState) :
    BpyState :=
  { w with active_cam := fun s => if s = scene then c else w.active_cam s }

/-- The `camera` argument of `Compositor.render`. -/
inductive CameraArg
  | noCamera
  | one (c : CamObj)
  | many (cs : List CamObj)

/-- `Compositor.render`: the rendered scene defaults to the context scene;
the context scene's active camera is saved before the loop
(`_original_active_camera = bpy.context.scene.camera`); `camera=None` wraps
the context scene's active camera (`Camera()`); for an animation the frame
range of the rendered scene is set; the loop sets `scene.camera` to each
camera in turn; finally `scene.camera = _original_active_camera`.  The
compositor registries are read but never modified. -/
def render (comp : CompositorState) (w : BpyState) (camera : CameraArg)
    (scene? : Option SceneId) (animation : Bool)
    (frame_start frame_end : Int) : CompositorState × BpyState :=
  let scene := scene?.getD w.ctx_scene
  let original := w.active_cam w.ctx_scene
  let cams : List (Option CamObj) := match camera with
    | .noCamera => [w.active_cam w.ctx_scene]
    | .one c => [some c]
    | .many cs => cs.map some
  let w1 := if animation then
      { w with
        frame_start := fun s => if s = scene then frame_start
          else w.frame_start s
        frame_end := fun s => if s = scene then frame_end
          else w.frame_end s }
    else w
  let w2 := cams.foldl (fun acc c => set_active_cam scene c acc) w1
  let w3 := set_active_cam scene original w2
  (comp, w3)

/-! ### Theorems about the compositor (C8, C9, C10) -/

/-- An empty compositor. -/
def comp0 : CompositorState :=
  { file_output_nodes := [], mask_nodes := [], overlays := [], aovs := [],
    nodes := [], next_node := 0, use_pass_object_index := false }

/-- A `bpy` state with context scene 0 (camera `A`) and a second scene 1
(camera `B`). -/
def w8 : BpyState :=
  { ctx_scene := 0
    active_cam := fun s => if s = 0 then some "A"
      else if s = 1 then some "B" else none
    frame_start := fun _ => 0
    frame_end := fun _ => 250 }

/-- C8 counterexample: `render` saves the active camera of the *context*
scene and restores it onto the *rendered* scene; when an explicit scene
different from the context scene is rendered, that scene's active camera
after the call (`A`, the context scene's camera) differs from its active
camera before the call (`B`). -/
theorem C8_counterexample :
    (render comp0 w8 (.one "C") (some 1) false 0 250).2.active_cam 1
        = some "A" ∧
    w8.active_cam 1 = some "B" ∧
    (render comp0 w8 (.one "C") (some 1) false 0 250).2.active_cam 1
        ≠ w8.active_cam 1 := by
  refine ⟨rfl, rfl, ?_⟩
  decide

/-- The camera loop of `render` touches no scene other than the rendered
one. -/
theorem foldl_set_active_cam_ne (cams : List (Option CamObj))
    (scene : SceneId) (w : BpyState) (s : SceneId) (hs : s ≠ scene) :
    (cams.foldl (fun acc c => set_active_cam scene c acc) w).active_cam s
      = w.active_cam s := by
  induction cams generalizing w with
  | nil => rfl
  | cons c cs ih =>
    rw [List.foldl_cons, ih]
    simp [set_active_cam, hs]

/-- The animation branch of `render` does not change any active camera. -/
theorem render_pre_loop_cam (w : BpyState) (scene : SceneId)
    (animation : Bool) (fs fe : Int) (s : SceneId) :
    (if animation then
      { w with
        frame_start := fun u => if u = scene then fs else w.frame_start u
        frame_end := fun u => if u = scene then fe else w.frame_end u }
     else w).active_cam s = w.active_cam s := by
  by_cases h : animation <;> simp [h]

/-- C8 (amended): after `Compositor.render` returns, the compositor's
registries (file output nodes, overlays, AOV list, mask nodes) are the same
as before the call; the *rendered* scene's active camera equals the active
camera the *context* scene had before the call - so it equals its own prior
active camera whenever the rendered scene is the context scene (in
particular whenever `scene` is omitted) - and every other scene's active
camera is unchanged. -/
theorem C8_amended (comp : CompositorState) (w : BpyState)
    (camera : CameraArg) (scene? : Option SceneId) (animation : Bool)
    (fs fe : Int) :
    (render comp w camera scene? animation fs fe).1 = comp ∧
    (render comp w camera scene? animation fs fe).2.active_cam
        (scene?.getD w.ctx_scene) = w.active_cam w.ctx_scene ∧
    (scene?.getD w.ctx_scene = w.ctx_scene →
      (render comp w camera scene? animation fs fe).2.active_cam
          (scene?.getD w.ctx_scene)
        = w.active_cam (scene?.getD w.ctx_scene)) ∧
    (∀ s, s ≠ scene?.getD w.ctx_scene →
      (render comp w camera scene? animation fs fe).2.active_cam s
        = w.active_cam s) := by
  have h2 : (render comp w camera scene? animation fs fe).2.active_cam
      (scene?.getD w.ctx_scene) = w.active_cam w.ctx_scene := by
    simp [render, set_active_cam]
  refine ⟨rfl, h2, ?_, ?_⟩
  · intro h
    rw [h2, h]
  · intro s hs
    show (set_active_cam (scene?.getD w.ctx_scene) _ _).active_cam s = _
    rw [show (set_active_cam (scene?.getD w.ctx_scene) _ _).active_cam s
        = _ from if_neg hs]
    rw [foldl_set_active_cam_ne _ _ _ _ hs]
    exact render_pre_loop_cam w _ animation fs fe s

/-- Witness for the amended C8: rendering the context scene restores its
own active camera. -/
theorem C8_amended_witness :
    (render comp0 w8 .noCamera none false 0 250).2.active_cam 0
      = w8.active_cam 0 := by
  have h := (C8_amended comp0 w8 .noCamera none false 0 250).2.2.1 rfl
  simpa using h

/-- Association-list lookup of a fresh key after an append. -/
theorem lookup_append_of_none {α β : Type} [BEq α] [LawfulBEq α]
    (l : List (α × β)) (k : α) (v : β) (h : l.lookup k = none) :
    (l ++ [(k, v)]).lookup k = some v := by
  induction l with
  | nil => simp [List.lookup]
  | cons hd tl ih =>
    simp only [List.lookup] at h
    rcases hbeq : k == hd.1 with _ | _
    · rw [hbeq] at h
      rw [List.cons_append]
      simp only [List.lookup, hbeq]
      exact ih h
    · rw [hbeq] at h
      cases h

/-- C9: `define_output` with an already-registered name (explicit, or
derived from `input_data`) raises `ValueError`, creating no node and
leaving `file_output_nodes` unchanged; with a fresh name it registers
exactly one new file output node under that name and returns the name. -/
theorem C9_define_output (comp : CompositorState) (input_data : InputData)
    (name? : Option String) (file_format : String)
    (hfmt : file_format ∈ format_to_extension_keys) :
    (derived_name input_data name? ∈ comp.file_output_nodes.map Prod.fst →
      (define_output comp input_data name? file_format).1
          = .error .valueError ∧
      (define_output comp input_data name? file_format).2.file_output_nodes
          = comp.file_output_nodes ∧
      (define_output comp input_data name? file_format).2.nodes
          = comp.nodes) ∧
    (derived_name input_data name? ∉ comp.file_output_nodes.map Prod.fst →
      (define_output comp input_data name? file_format).1
          = .ok (derived_name input_data name?) ∧
      (define_output comp input_data name? file_format).2.file_output_nodes
          = comp.file_output_nodes
            ++ [(derived_name input_data name?, comp.next_node)] ∧
      (define_output comp input_data name? file_format).2.nodes
          = comp.nodes ++ [comp.next_node]) := by
  constructor
  · intro hdup
    cases input_data <;>
      simp [define_output, hfmt, hdup]
  · intro hnew
    cases input_data <;>
      simp [define_output, hfmt, hnew]

/-- Witness for C9: registering `"rgb"` twice in a row. -/
theorem C9_define_output_witness :
    (define_output
      (define_output comp0 (.str "rgb") none "PNG").2
      (.str "rgb") none "PNG").1 = .error .valueError := by
  have h := (C9_define_output (define_output comp0 (.str "rgb") none "PNG").2
    (.str "rgb") none "PNG" (by decide)).1 (by decide)
  exact h.1

/-- C10: `get_mask` is idempotent per pass index: for a valid `input_rgb`,
the first call for an index creates and registers exactly one mask node
group, and every later call with that index returns the same node group,
creating nothing and leaving `mask_nodes` unchanged. -/
theorem C10_get_mask (comp : CompositorState) (index : Nat)
    (input_rgb : InputRGB) (hvalid : input_rgb ≠ .invalid) :
    (comp.mask_nodes.lookup index = none →
      (get_mask comp index input_rgb).1 = .ok comp.next_node ∧
      (get_mask comp index input_rgb).2.mask_nodes
          = comp.mask_nodes ++ [(index, comp.next_node)] ∧
      (get_mask comp index input_rgb).2.nodes
          = comp.nodes ++ [comp.next_node] ∧
      (∀ input2 : InputRGB,
        (get_mask (get_mask comp index input_rgb).2 index input2).1
            = .ok comp.next_node ∧
        (get_mask (get_mask comp index input_rgb).2 index input2).2.mask_nodes
            = (get_mask comp index input_rgb).2.mask_nodes ∧
        (get_mask (get_mask comp index input_rgb).2 index input2).2.nodes
            = (get_mask comp index input_rgb).2.nodes)) ∧
    (∀ m, comp.mask_nodes.lookup index = some m →
      (get_mask comp index input_rgb).1 = .ok m ∧
      (get_mask comp index input_rgb).2.mask_nodes = comp.mask_nodes ∧
      (get_mask comp index input_rgb).2.nodes = comp.nodes) := by
  constructor
  · intro hnone
    have hsecond : ((comp.mask_nodes ++ [(index, comp.next_node)]).lookup
        index) = some comp.next_node :=
      lookup_append_of_none comp.mask_nodes index comp.next_node hnone
    cases input_rgb with
    | invalid => exact absurd rfl hvalid
    | str s =>
      refine ⟨by simp [get_mask, hnone], by simp [get_mask, hnone],
        by simp [get_mask, hnone], ?_⟩
      intro input2
      refine ⟨?_, ?_, ?_⟩ <;>
        simp [get_mask, hnone, hsecond]
    | nodeGroup n =>
      refine ⟨by simp [get_mask, hnone], by simp [get_mask, hnone],
        by simp [get_mask, hnone], ?_⟩
      intro input2
      refine ⟨?_, ?_, ?_⟩ <;>
        simp [get_mask, hnone, hsecond]
  · intro m hm
    cases input_rgb with
    | invalid => exact absurd rfl hvalid
    | str s => exact ⟨by simp [get_mask, hm], by simp [get_mask, hm],
        by simp [get_mask, hm]⟩
    | nodeGroup n => exact ⟨by simp [get_mask, hm], by simp [get_mask, hm],
        by simp [get_mask, hm]⟩

/-- Witness for C10: the first mask for pass index 5. -/
theorem C10_get_mask_witness :
    (get_mask comp0 5 (.str "Image")).1 = .ok 0 := by
  have h := (C10_get_mask comp0 5 (.str "Image") (by decide)).1 rfl
  exact h.1

end BSyn
